import Mathlib

/-!
Verification of the SQL composition module (`lib/sql.py`).

The module builds SQL query text from typed nodes: `SQL` (raw snippet),
`Identifier` (quoted name), `Literal` (adapted value), `Placeholder`
(parameter marker) and `Composed` (ordered sequence of nodes).  We embed
the node type, its rendering (`as_string`), the operators `+` (`add`) and
`*` (`mul`), `Composed.join`, `Placeholder.__init__` and the template
engine `SQL.format`, and prove the behavioural properties stated in the
specification.

External collaborators (the psycopg2 extension module) are modelled as an
abstract rendering context `Ctx` supplying identifier quoting and value
adaptation.  The standard-library formatter `string.Formatter().parse` is
external to the repository as well: `SQL.format` consumes its output
stream, so the embedding of `format` takes the parse stream (a list of
`ParseItem` quadruples `(literal_text, field_name, format_spec,
conversion)`) as input, exactly the shape the loop in `SQL.format`
iterates over.
-/

/-- The rendering context: stands for the `conn_or_curs` argument together
with the psycopg2 extension capabilities used by `Identifier.as_string`
(`ext.quote_ident`) and `Literal.as_string` (adaptation).  Both are opaque
external functions from this module's point of view. -/
structure Ctx where
  quote_ident : String → String
  adapt : String → String

/-- The node type of `lib/sql.py`: the `Composable` class hierarchy.
`SQL` wraps a raw string, `Identifier` a name, `Literal` a host value
(its payload is only ever passed to the external adapter, so we model it
as the adapter's key), `Placeholder` an optional name, and `Composed` an
ordered sequence of nodes. -/
inductive Composable where
  | SQL (s : String)
  | Identifier (s : String)
  | Literal (v : String)
  | Placeholder (name : Option String)
  | Composed (seq : List Composable)

mutual
/-- `as_string` of each node class: `SQL.as_string` returns the wrapped
string unchanged (lines 176-177); `Identifier.as_string` delegates to
`ext.quote_ident`; `Literal.as_string` delegates to adaptation;
`Placeholder.as_string` yields `%s` or `%(name)s` (lines 393-397);
`Composed.as_string` concatenates the children's renderings in order
(lines 102-106). -/
def Composable.as_string : Composable → Ctx → String
  | .SQL s, _ => s
  | .Identifier s, ctx => ctx.quote_ident s
  | .Literal v, ctx => ctx.adapt v
  | .Placeholder Option.none, _ => "%s"
  | .Placeholder (Option.some n), _ => "%(" ++ n ++ ")s"
  | .Composed seq, ctx => Composable.as_string_seq seq ctx

/-- The loop body of `Composed.as_string`: render every element and join
the results (`''.join(rv)`). -/
def Composable.as_string_seq : List Composable → Ctx → String
  | [], _ => ""
  | x :: xs, ctx => x.as_string ctx ++ Composable.as_string_seq xs ctx
end

/-- `Composable.__add__` / `Composed.__add__` (lines 62-68 and 108-114):
a `Composed` receiver extends its sequence by the other node (or by the
other's full sequence when the other is `Composed`); a leaf receiver is
first wrapped as `Composed([self])`, giving a fresh two-element (or
`1 + len(other)`-element) `Composed`. -/
def Composable.add : Composable → Composable → Composable
  | .Composed s, .Composed t => .Composed (s ++ t)
  | .Composed s, other => .Composed (s ++ [other])
  | self, .Composed t => .Composed (self :: t)
  | self, other => .Composed [self, other]

/-- `Composable.__mul__` (lines 70-71): `Composed([self] * n)`.  The
Python list-repetition `[self] * n` yields the empty list for every
`n <= 0`, which `Int.toNat` captures. -/
def Composable.mul (self : Composable) (n : Int) : Composable :=
  .Composed (List.replicate n.toNat self)

/-- The argument accepted by `Composed.join`: a text value or a node
(Python checks `isinstance(joiner, basestring)` / `isinstance(joiner, SQL)`). -/
inductive JoinArg where
  | txt (s : String)
  | node (c : Composable)

/-- The joiner coercion at the top of `Composed.join` (lines 130-134):
a string is wrapped into `SQL`, an `SQL` node is kept, anything else is a
`TypeError`. -/
def coerceJoiner : JoinArg → Except String Composable
  | .txt s => .ok (.SQL s)
  | .node (.SQL s) => .ok (.SQL s)
  | .node _ => .error "Composed.join() argument must be a string or an SQL"

/-- `Composed.join` (lines 116-145): coerce the joiner, return the
receiver unchanged when it has at most one element, otherwise interpose
one copy of the joiner between adjacent children. -/
def Composed.join (seq : List Composable) (joiner : JoinArg) : Except String Composable :=
  match coerceJoiner joiner with
  | .error e => .error e
  | .ok j =>
    if seq.length ≤ 1 then .ok (.Composed seq)
    else
      match seq with
      | [] => .ok (.Composed [])
      | x :: rest => .ok (.Composed (x :: rest.flatMap (fun i => [j, i])))

/-- The `name` argument of `Placeholder.__init__`: absent (`None`), a
text value, or any other Python value (carried as its repr). -/
inductive PyNameArg where
  | absent
  | text (s : String)
  | other (r : String)

/-- Construction-time errors of `Placeholder.__init__`. -/
inductive InitErr where
  | valueError (msg : String)
  | typeError (msg : String)
deriving DecidableEq

/-- `Placeholder.__init__` (lines 379-387): a text name containing the
character `)` is a `ValueError`; a non-text, non-`None` name is a
`TypeError`; otherwise the name is stored. -/
def Placeholder.init : PyNameArg → Except InitErr Composable
  | .text s =>
    if s.data.contains ')' then .error (.valueError ("invalid name: " ++ s))
    else .ok (.Placeholder (Option.some s))
  | .absent => .ok (.Placeholder Option.none)
  | .other r => .error (.typeError ("expected string or None as name, got " ++ r))

/-- One quadruple `(literal_text, field_name, format_spec, conversion)`
of the stream produced by `string.Formatter().parse`, the stream
`SQL.format` iterates over (line 213). -/
structure ParseItem where
  pre : String
  name : Option String
  spec : Option String
  conv : Option String

/-- Python truthiness of an optional string (`if spec:` / `if conv:`):
`None` and the empty string are falsy. -/
def truthyStr : Option String → Bool
  | Option.none => false
  | Option.some s => s ≠ ""

/-- Python `str.isdigit`: non-empty and all characters digits. -/
def isDigits (s : String) : Bool :=
  !s.data.isEmpty && s.data.all Char.isDigit

/-- Python `int(name)` on an all-digit string. -/
def digitsToNat (s : String) : Nat :=
  s.data.foldl (fun n c => n * 10 + (c.toNat - '0'.toNat)) 0

/-- The errors `SQL.format` can raise: `ValueError` for a format spec or
conversion, `ValueError` for the two numbering-mode switches, and the
lookup errors `IndexError` (`args[i]`) and `KeyError` (`kwargs[name]`). -/
inductive FmtErr where
  | specNotSupported
  | convNotSupported
  | autoToManual
  | manualToAuto
  | indexError
  | keyError
deriving DecidableEq

/-- The literal-text nodes an item contributes: `if pre:
rv.append(SQL(pre))` (lines 218-219) — a non-empty literal run becomes
one `SQL` node, an empty one contributes nothing. -/
def litOf (it : ParseItem) : List Composable :=
  if it.pre = "" then [] else [.SQL it.pre]

/-- The body of the `for` loop of `SQL.format` (lines 213-239) for a
single parse item, acting on the `autonum` state (`Option.some k` is the
integer counter, `Option.none` is Python's `autonum = None`, i.e. manual
mode).  Checks happen in source order: format spec, conversion, literal
text, then the field:
a digit name is rejected when `autonum` is truthy (a positive counter),
otherwise indexes `args`, setting `autonum = None`;
an empty name is rejected when `autonum is None`, otherwise consumes
`args[autonum]` and increments the counter;
any other name indexes `kwargs`. -/
def stepItem (args : List Composable) (kwargs : List (String × Composable))
    (autonum : Option Nat) (it : ParseItem) :
    Except FmtErr (List Composable × Option Nat) :=
  if truthyStr it.spec then .error .specNotSupported
  else if truthyStr it.conv then .error .convNotSupported
  else
    match it.name with
    | Option.none => .ok (litOf it, autonum)
    | Option.some nm =>
      if isDigits nm then
        match autonum with
        | Option.some (_ + 1) => .error .autoToManual
        | _ =>
          match args.get? (digitsToNat nm) with
          | Option.none => .error .indexError
          | Option.some v => .ok (litOf it ++ [v], Option.none)
      else if nm = "" then
        match autonum with
        | Option.none => .error .manualToAuto
        | Option.some k =>
          match args.get? k with
          | Option.none => .error .indexError
          | Option.some v => .ok (litOf it ++ [v], Option.some (k + 1))
      else
        match List.lookup nm kwargs with
        | Option.none => .error .keyError
        | Option.some v => .ok (litOf it ++ [v], autonum)

/-- The full `for` loop of `SQL.format`, threading the `autonum` state
and accumulating `rv`. -/
def formatFrom (args : List Composable) (kwargs : List (String × Composable)) :
    Option Nat → List ParseItem → Except FmtErr (List Composable × Option Nat)
  | autonum, [] => .ok ([], autonum)
  | autonum, it :: rest =>
    match stepItem args kwargs autonum it with
    | .error e => .error e
    | .ok (ns, a2) =>
      match formatFrom args kwargs a2 rest with
      | .error e => .error e
      | .ok (ms, a3) => .ok (ns ++ ms, a3)

/-- `SQL.format` (lines 211-241): run the loop from `autonum = 0` on the
parse stream of the wrapped template and return `Composed(rv)`. -/
def SQL.format (args : List Composable) (kwargs : List (String × Composable))
    (items : List ParseItem) : Except FmtErr Composable :=
  match formatFrom args kwargs (Option.some 0) items with
  | .error e => .error e
  | .ok (rv, _) => .ok (.Composed rv)

/-- Spec-side description of the output of `SQL.format`, following the
specification's words: scanning left to right, every non-empty literal
run of text is emitted as its own `SQL` (Snippet) node, and each marker
is followed by the substituted argument node — auto-numbered markers
consume positional arguments in scan order, manual-numbered markers
select by index, named markers select by name. -/
def interleaveSpec (args : List Composable) (kwargs : List (String × Composable)) :
    Nat → List ParseItem → List Composable
  | _, [] => []
  | autoIdx, it :: rest =>
    match it.name with
    | Option.none => litOf it ++ interleaveSpec args kwargs autoIdx rest
    | Option.some nm =>
      if isDigits nm then
        litOf it ++ (args.get? (digitsToNat nm)).toList ++
          interleaveSpec args kwargs autoIdx rest
      else if nm = "" then
        litOf it ++ (args.get? autoIdx).toList ++
          interleaveSpec args kwargs (autoIdx + 1) rest
      else
        litOf it ++ (List.lookup nm kwargs).toList ++
          interleaveSpec args kwargs autoIdx rest

/-- `n`-fold concatenation of a string, the spec's `render(ctx) * n`. -/
def nfold (n : Nat) (s : String) : String :=
  match n with
  | 0 => ""
  | k + 1 => s ++ nfold k s

/-- An item carrying no format spec and no conversion (both falsy), the
case in which the spec/conversion `ValueError`s of lines 214-217 do not
fire. -/
def cleanItem (it : ParseItem) : Prop :=
  truthyStr it.spec = false ∧ truthyStr it.conv = false

/-! ### Rendering lemmas -/

theorem as_string_seq_append (xs ys : List Composable) (ctx : Ctx) :
    Composable.as_string_seq (xs ++ ys) ctx =
      Composable.as_string_seq xs ctx ++ Composable.as_string_seq ys ctx := by
  induction xs with
  | nil => simp [Composable.as_string_seq, String.empty_append]
  | cons x xs ih => simp [Composable.as_string_seq, ih, String.append_assoc]

theorem as_string_composed (l : List Composable) (ctx : Ctx) :
    (Composable.Composed l).as_string ctx = Composable.as_string_seq l ctx := by
  simp only [Composable.as_string]

theorem as_string_add (a b : Composable) (ctx : Ctx) :
    (Composable.add a b).as_string ctx = a.as_string ctx ++ b.as_string ctx := by
  cases a <;> cases b <;>
    simp only [Composable.add, as_string_composed, Composable.as_string_seq,
      as_string_seq_append, String.append_empty, String.append_assoc]

theorem as_string_seq_replicate (n : Nat) (x : Composable) (ctx : Ctx) :
    Composable.as_string_seq (List.replicate n x) ctx = nfold n (x.as_string ctx) := by
  induction n with
  | zero => simp [List.replicate, Composable.as_string_seq, nfold]
  | succ k ih => simp [List.replicate, Composable.as_string_seq, nfold, ih]

/-! ### Join lemmas -/

theorem cons_flatMap_pairs (sep : Composable) :
    ∀ (x : Composable) (rest : List Composable),
      x :: rest.flatMap (fun i => [sep, i]) = List.intersperse sep (x :: rest)
  | _, [] => rfl
  | x, y :: t => by
    rw [List.intersperse_cons_cons, List.flatMap_cons, ← cons_flatMap_pairs sep y t]
    rfl

theorem length_intersperse_of_ne_nil (sep : Composable) :
    ∀ l : List Composable, l ≠ [] → (List.intersperse sep l).length = 2 * l.length - 1
  | [], h => absurd rfl h
  | [_], _ => rfl
  | x :: y :: t, _ => by
    have ih := length_intersperse_of_ne_nil sep (y :: t) (by simp)
    rw [List.intersperse_cons_cons]
    simp only [List.length_cons] at ih ⊢
    omega

/-! ### Single-step lemmas for the `format` loop -/

theorem stepItem_noname (args : List Composable) (kwargs : List (String × Composable))
    (a : Option Nat) (it : ParseItem) (hclean : cleanItem it)
    (hname : it.name = Option.none) :
    stepItem args kwargs a it = .ok (litOf it, a) := by
  obtain ⟨h1, h2⟩ := hclean
  simp [stepItem, h1, h2, hname]

theorem stepItem_manual_block (args : List Composable) (kwargs : List (String × Composable))
    (k : Nat) (it : ParseItem) (nm : String) (hclean : cleanItem it)
    (hname : it.name = Option.some nm) (hdig : isDigits nm = true) :
    stepItem args kwargs (Option.some (k + 1)) it = .error .autoToManual := by
  obtain ⟨h1, h2⟩ := hclean
  simp [stepItem, h1, h2, hname, hdig]

theorem stepItem_auto_block (args : List Composable) (kwargs : List (String × Composable))
    (it : ParseItem) (hclean : cleanItem it) (hname : it.name = Option.some "") :
    stepItem args kwargs Option.none it = .error .manualToAuto := by
  obtain ⟨h1, h2⟩ := hclean
  simp [stepItem, h1, h2, hname, show isDigits "" = false from rfl]

theorem stepItem_auto_miss (args : List Composable) (kwargs : List (String × Composable))
    (k : Nat) (it : ParseItem) (hclean : cleanItem it) (hname : it.name = Option.some "")
    (hmiss : args.get? k = Option.none) :
    stepItem args kwargs (Option.some k) it = .error .indexError := by
  obtain ⟨h1, h2⟩ := hclean
  simp only [List.get?_eq_getElem?] at hmiss
  simp [stepItem, h1, h2, hname, hmiss, show isDigits "" = false from rfl]

theorem stepItem_manual_miss (args : List Composable) (kwargs : List (String × Composable))
    (a : Option Nat) (it : ParseItem) (nm : String) (hclean : cleanItem it)
    (hname : it.name = Option.some nm) (hdig : isDigits nm = true)
    (ha : a = Option.some 0 ∨ a = Option.none)
    (hmiss : args.get? (digitsToNat nm) = Option.none) :
    stepItem args kwargs a it = .error .indexError := by
  obtain ⟨h1, h2⟩ := hclean
  simp only [List.get?_eq_getElem?] at hmiss
  rcases ha with ha | ha <;> subst ha <;> simp [stepItem, h1, h2, hname, hdig, hmiss]

theorem stepItem_named_miss (args : List Composable) (kwargs : List (String × Composable))
    (a : Option Nat) (it : ParseItem) (nm : String) (hclean : cleanItem it)
    (hname : it.name = Option.some nm) (hdig : isDigits nm = false) (hne : nm ≠ "")
    (hmiss : List.lookup nm kwargs = Option.none) :
    stepItem args kwargs a it = .error .keyError := by
  obtain ⟨h1, h2⟩ := hclean
  simp [stepItem, h1, h2, hname, hdig, hne, hmiss]

theorem stepItem_spec_err (args : List Composable) (kwargs : List (String × Composable))
    (a : Option Nat) (it : ParseItem) (hs : truthyStr it.spec = true) :
    stepItem args kwargs a it = .error .specNotSupported := by
  simp [stepItem, hs]

theorem stepItem_conv_err (args : List Composable) (kwargs : List (String × Composable))
    (a : Option Nat) (it : ParseItem) (hs : truthyStr it.spec = false)
    (hc : truthyStr it.conv = true) :
    stepItem args kwargs a it = .error .convNotSupported := by
  simp [stepItem, hs, hc]

theorem stepItem_auto_ok (args : List Composable) (kwargs : List (String × Composable))
    (k : Nat) (it : ParseItem) (v : Composable) (hclean : cleanItem it)
    (hname : it.name = Option.some "") (hv : args.get? k = Option.some v) :
    stepItem args kwargs (Option.some k) it = .ok (litOf it ++ [v], Option.some (k + 1)) := by
  obtain ⟨h1, h2⟩ := hclean
  simp only [List.get?_eq_getElem?] at hv
  simp [stepItem, h1, h2, hname, hv, show isDigits "" = false from rfl]

theorem stepItem_manual_ok (args : List Composable) (kwargs : List (String × Composable))
    (a : Option Nat) (it : ParseItem) (nm : String) (v : Composable) (hclean : cleanItem it)
    (hname : it.name = Option.some nm) (hdig : isDigits nm = true)
    (ha : a = Option.some 0 ∨ a = Option.none)
    (hv : args.get? (digitsToNat nm) = Option.some v) :
    stepItem args kwargs a it = .ok (litOf it ++ [v], Option.none) := by
  obtain ⟨h1, h2⟩ := hclean
  simp only [List.get?_eq_getElem?] at hv
  rcases ha with ha | ha <;> subst ha <;> simp [stepItem, h1, h2, hname, hdig, hv]

theorem stepItem_named_ok (args : List Composable) (kwargs : List (String × Composable))
    (a : Option Nat) (it : ParseItem) (nm : String) (v : Composable) (hclean : cleanItem it)
    (hname : it.name = Option.some nm) (hdig : isDigits nm = false) (hne : nm ≠ "")
    (hv : List.lookup nm kwargs = Option.some v) :
    stepItem args kwargs a it = .ok (litOf it ++ [v], a) := by
  obtain ⟨h1, h2⟩ := hclean
  simp [stepItem, h1, h2, hname, hdig, hne, hv]

theorem stepItem_clean_of_ok (args : List Composable) (kwargs : List (String × Composable))
    (a : Option Nat) (it : ParseItem) (p : List Composable × Option Nat)
    (h : stepItem args kwargs a it = .ok p) : cleanItem it := by
  constructor
  · by_contra hs
    rw [Bool.not_eq_false] at hs
    rw [stepItem_spec_err args kwargs a it hs] at h
    cases h
  · by_contra hc
    rw [Bool.not_eq_false] at hc
    by_cases hs : truthyStr it.spec = true
    · rw [stepItem_spec_err args kwargs a it hs] at h
      cases h
    · rw [Bool.not_eq_true] at hs
      rw [stepItem_conv_err args kwargs a it hs hc] at h
      cases h

theorem stepItem_noname_inv (args : List Composable) (kwargs : List (String × Composable))
    (a : Option Nat) (it : ParseItem) (ns : List Composable) (a2 : Option Nat)
    (hname : it.name = Option.none)
    (h : stepItem args kwargs a it = .ok (ns, a2)) :
    ns = litOf it ∧ a2 = a := by
  have hclean := stepItem_clean_of_ok args kwargs a it _ h
  rw [stepItem_noname args kwargs a it hclean hname] at h
  simp only [Except.ok.injEq, Prod.mk.injEq] at h
  exact ⟨h.1.symm, h.2.symm⟩

theorem stepItem_auto_inv (args : List Composable) (kwargs : List (String × Composable))
    (a : Option Nat) (it : ParseItem) (ns : List Composable) (a2 : Option Nat)
    (hname : it.name = Option.some "")
    (h : stepItem args kwargs a it = .ok (ns, a2)) :
    ∃ k v, a = Option.some k ∧ args.get? k = Option.some v ∧
      ns = litOf it ++ [v] ∧ a2 = Option.some (k + 1) := by
  have hclean := stepItem_clean_of_ok args kwargs a it _ h
  cases a with
  | none =>
    rw [stepItem_auto_block args kwargs it hclean hname] at h
    cases h
  | some k =>
    cases hv : args.get? k with
    | none =>
      rw [stepItem_auto_miss args kwargs k it hclean hname hv] at h
      cases h
    | some v =>
      rw [stepItem_auto_ok args kwargs k it v hclean hname hv] at h
      simp only [Except.ok.injEq, Prod.mk.injEq] at h
      exact ⟨k, v, rfl, hv, h.1.symm, h.2.symm⟩

theorem stepItem_manual_inv (args : List Composable) (kwargs : List (String × Composable))
    (a : Option Nat) (it : ParseItem) (nm : String) (ns : List Composable) (a2 : Option Nat)
    (hname : it.name = Option.some nm) (hdig : isDigits nm = true)
    (h : stepItem args kwargs a it = .ok (ns, a2)) :
    ∃ v, (a = Option.some 0 ∨ a = Option.none) ∧
      args.get? (digitsToNat nm) = Option.some v ∧
      ns = litOf it ++ [v] ∧ a2 = Option.none := by
  have hclean := stepItem_clean_of_ok args kwargs a it _ h
  have ha : a = Option.some 0 ∨ a = Option.none := by
    cases a with
    | none => exact Or.inr rfl
    | some k =>
      cases k with
      | zero => exact Or.inl rfl
      | succ j =>
        rw [stepItem_manual_block args kwargs j it nm hclean hname hdig] at h
        cases h
  cases hv : args.get? (digitsToNat nm) with
  | none =>
    rw [stepItem_manual_miss args kwargs a it nm hclean hname hdig ha hv] at h
    cases h
  | some v =>
    rw [stepItem_manual_ok args kwargs a it nm v hclean hname hdig ha hv] at h
    simp only [Except.ok.injEq, Prod.mk.injEq] at h
    exact ⟨v, ha, rfl, h.1.symm, h.2.symm⟩

theorem stepItem_named_inv (args : List Composable) (kwargs : List (String × Composable))
    (a : Option Nat) (it : ParseItem) (nm : String) (ns : List Composable) (a2 : Option Nat)
    (hname : it.name = Option.some nm) (hdig : isDigits nm = false) (hne : nm ≠ "")
    (h : stepItem args kwargs a it = .ok (ns, a2)) :
    ∃ v, List.lookup nm kwargs = Option.some v ∧
      ns = litOf it ++ [v] ∧ a2 = a := by
  have hclean := stepItem_clean_of_ok args kwargs a it _ h
  cases hv : List.lookup nm kwargs with
  | none =>
    rw [stepItem_named_miss args kwargs a it nm hclean hname hdig hne hv] at h
    cases h
  | some v =>
    rw [stepItem_named_ok args kwargs a it nm v hclean hname hdig hne hv] at h
    simp only [Except.ok.injEq, Prod.mk.injEq] at h
    exact ⟨v, rfl, h.1.symm, h.2.symm⟩

/-! ### Loop-level lemmas for `format` -/

theorem formatFrom_cons_ok (args : List Composable) (kwargs : List (String × Composable))
    (a : Option Nat) (it : ParseItem) (rest : List ParseItem)
    (ns : List Composable) (a3 : Option Nat)
    (h : formatFrom args kwargs a (it :: rest) = .ok (ns, a3)) :
    ∃ ms1 a2 ms2, stepItem args kwargs a it = .ok (ms1, a2) ∧
      formatFrom args kwargs a2 rest = .ok (ms2, a3) ∧ ns = ms1 ++ ms2 := by
  unfold formatFrom at h
  cases hs : stepItem args kwargs a it with
  | error e => simp only [hs] at h; cases h
  | ok p =>
    obtain ⟨ms1, a2⟩ := p
    simp only [hs] at h
    cases hr : formatFrom args kwargs a2 rest with
    | error e => simp only [hr] at h; cases h
    | ok q =>
      obtain ⟨ms2, a4⟩ := q
      simp only [hr, Except.ok.injEq, Prod.mk.injEq] at h
      exact ⟨ms1, a2, ms2, rfl, h.2 ▸ hr, h.1.symm⟩

theorem formatFrom_cons_step_err (args : List Composable)
    (kwargs : List (String × Composable)) (a : Option Nat) (it : ParseItem)
    (rest : List ParseItem) (e : FmtErr)
    (hs : stepItem args kwargs a it = .error e) :
    formatFrom args kwargs a (it :: rest) = .error e := by
  unfold formatFrom
  simp only [hs]

theorem formatFrom_cons_rest_err (args : List Composable)
    (kwargs : List (String × Composable)) (a : Option Nat) (it : ParseItem)
    (rest : List ParseItem) (ms1 : List Composable) (a2 : Option Nat) (e : FmtErr)
    (hs : stepItem args kwargs a it = .ok (ms1, a2))
    (hr : formatFrom args kwargs a2 rest = .error e) :
    formatFrom args kwargs a (it :: rest) = .error e := by
  unfold formatFrom
  simp only [hs, hr]

theorem formatFrom_append_ok (args : List Composable) (kwargs : List (String × Composable)) :
    ∀ (xs ys : List ParseItem) (a : Option Nat) (ns : List Composable) (a3 : Option Nat),
      formatFrom args kwargs a (xs ++ ys) = .ok (ns, a3) →
      ∃ ms1 a2 ms2, formatFrom args kwargs a xs = .ok (ms1, a2) ∧
        formatFrom args kwargs a2 ys = .ok (ms2, a3) ∧ ns = ms1 ++ ms2
  | [], ys, a, ns, a3, h => ⟨[], a, ns, rfl, h, rfl⟩
  | it :: xs, ys, a, ns, a3, h => by
    rw [List.cons_append] at h
    obtain ⟨ms1, a2, ms2, hs, hrest, hns⟩ :=
      formatFrom_cons_ok args kwargs a it (xs ++ ys) ns a3 h
    obtain ⟨ps1, amid, ps2, hxs, hys, hms⟩ :=
      formatFrom_append_ok args kwargs xs ys a2 ms2 a3 hrest
    refine ⟨ms1 ++ ps1, amid, ps2, ?_, hys, ?_⟩
    · unfold formatFrom
      simp only [hs, hxs]
    · rw [hns, hms, List.append_assoc]

theorem formatFrom_append_err (args : List Composable) (kwargs : List (String × Composable)) :
    ∀ (xs ys : List ParseItem) (a : Option Nat) (ms1 : List Composable) (a2 : Option Nat)
      (e : FmtErr),
      formatFrom args kwargs a xs = .ok (ms1, a2) →
      formatFrom args kwargs a2 ys = .error e →
      formatFrom args kwargs a (xs ++ ys) = .error e
  | [], ys, a, ms1, a2, e, hxs, hys => by
    unfold formatFrom at hxs
    simp only [Except.ok.injEq, Prod.mk.injEq] at hxs
    rw [List.nil_append, hxs.2]
    exact hys
  | it :: xs, ys, a, ms1, a2, e, hxs, hys => by
    obtain ⟨ps1, amid, ps2, hs, hrest, hns⟩ :=
      formatFrom_cons_ok args kwargs a it xs ms1 a2 hxs
    rw [List.cons_append]
    exact formatFrom_cons_rest_err args kwargs a it (xs ++ ys) ps1 amid e hs
      (formatFrom_append_err args kwargs xs ys amid ps2 a2 e hrest hys)

theorem formatFrom_state_pos (args : List Composable) (kwargs : List (String × Composable)) :
    ∀ (ys : List ParseItem) (k : Nat) (ns : List Composable) (a3 : Option Nat),
      formatFrom args kwargs (Option.some (k + 1)) ys = .ok (ns, a3) →
      ∃ j, a3 = Option.some (j + 1)
  | [], k, ns, a3, h => by
    unfold formatFrom at h
    simp only [Except.ok.injEq, Prod.mk.injEq] at h
    exact ⟨k, h.2.symm⟩
  | it :: ys, k, ns, a3, h => by
    obtain ⟨ms1, a2, ms2, hs, hrest, _⟩ :=
      formatFrom_cons_ok args kwargs _ it ys ns a3 h
    cases hname : it.name with
    | none =>
      obtain ⟨_, ha2⟩ := stepItem_noname_inv args kwargs _ it ms1 a2 hname hs
      subst ha2
      exact formatFrom_state_pos args kwargs ys k ms2 a3 hrest
    | some nm =>
      by_cases hdig : isDigits nm = true
      · rw [stepItem_manual_block args kwargs k it nm
          (stepItem_clean_of_ok args kwargs _ it _ hs) hname hdig] at hs
        cases hs
      · rw [Bool.not_eq_true] at hdig
        by_cases hne : nm = ""
        · subst hne
          obtain ⟨j, v, hj, _, _, ha2⟩ :=
            stepItem_auto_inv args kwargs _ it ms1 a2 hname hs
          rw [Option.some.injEq] at hj
          subst hj
          subst ha2
          exact formatFrom_state_pos args kwargs ys (k + 1) ms2 a3 hrest
        · obtain ⟨v, _, _, ha2⟩ :=
            stepItem_named_inv args kwargs _ it nm ms1 a2 hname hdig hne hs
          subst ha2
          exact formatFrom_state_pos args kwargs ys k ms2 a3 hrest

theorem formatFrom_state_none (args : List Composable) (kwargs : List (String × Composable)) :
    ∀ (ys : List ParseItem) (ns : List Composable) (a3 : Option Nat),
      formatFrom args kwargs Option.none ys = .ok (ns, a3) → a3 = Option.none
  | [], ns, a3, h => by
    unfold formatFrom at h
    simp only [Except.ok.injEq, Prod.mk.injEq] at h
    exact h.2.symm
  | it :: ys, ns, a3, h => by
    obtain ⟨ms1, a2, ms2, hs, hrest, _⟩ :=
      formatFrom_cons_ok args kwargs _ it ys ns a3 h
    cases hname : it.name with
    | none =>
      obtain ⟨_, ha2⟩ := stepItem_noname_inv args kwargs _ it ms1 a2 hname hs
      subst ha2
      exact formatFrom_state_none args kwargs ys ms2 a3 hrest
    | some nm =>
      by_cases hdig : isDigits nm = true
      · obtain ⟨v, _, _, _, ha2⟩ :=
          stepItem_manual_inv args kwargs _ it nm ms1 a2 hname hdig hs
        subst ha2
        exact formatFrom_state_none args kwargs ys ms2 a3 hrest
      · rw [Bool.not_eq_true] at hdig
        by_cases hne : nm = ""
        · subst hne
          rw [stepItem_auto_block args kwargs it
            (stepItem_clean_of_ok args kwargs _ it _ hs) hname] at hs
          cases hs
        · obtain ⟨v, _, _, ha2⟩ :=
            stepItem_named_inv args kwargs _ it nm ms1 a2 hname hdig hne hs
          subst ha2
          exact formatFrom_state_none args kwargs ys ms2 a3 hrest

theorem SQL.format_err (args : List Composable) (kwargs : List (String × Composable))
    (items : List ParseItem) (e : FmtErr)
    (h : formatFrom args kwargs (Option.some 0) items = .error e) :
    SQL.format args kwargs items = .error e := by
  unfold SQL.format
  rw [h]

theorem SQL.format_ok_inv (args : List Composable) (kwargs : List (String × Composable))
    (items : List ParseItem) (c : Composable)
    (h : SQL.format args kwargs items = .ok c) :
    ∃ ns a2, formatFrom args kwargs (Option.some 0) items = .ok (ns, a2) ∧
      c = .Composed ns := by
  unfold SQL.format at h
  cases hf : formatFrom args kwargs (Option.some 0) items with
  | error e => rw [hf] at h; cases h
  | ok p =>
    obtain ⟨ns, a2⟩ := p
    rw [hf] at h
    simp only [Except.ok.injEq] at h
    exact ⟨ns, a2, rfl, h.symm⟩

theorem formatFrom_interleave (args : List Composable) (kwargs : List (String × Composable)) :
    ∀ (items : List ParseItem) (a : Option Nat) (ns : List Composable) (a2 : Option Nat),
      formatFrom args kwargs a items = .ok (ns, a2) →
      (∀ k, a = Option.some k → ns = interleaveSpec args kwargs k items) ∧
      (a = Option.none → ∀ j, ns = interleaveSpec args kwargs j items)
  | [], a, ns, a2, h => by
    unfold formatFrom at h
    simp only [Except.ok.injEq, Prod.mk.injEq] at h
    exact ⟨fun k _ => h.1.symm, fun _ j => h.1.symm⟩
  | it :: rest, a, ns, a2, h => by
    obtain ⟨ms1, amid, ms2, hs, hrest, hns⟩ :=
      formatFrom_cons_ok args kwargs a it rest ns a2 h
    cases hname : it.name with
    | none =>
      obtain ⟨hms1, hamid⟩ := stepItem_noname_inv args kwargs a it ms1 amid hname hs
      have ihrest := formatFrom_interleave args kwargs rest amid ms2 a2 hrest
      constructor
      · intro k hk
        simp only [interleaveSpec, hname]
        rw [hns, hms1, ihrest.1 k (hamid.trans hk)]
      · intro ha j
        simp only [interleaveSpec, hname]
        rw [hns, hms1, ihrest.2 (hamid.trans ha) j]
    | some nm =>
      by_cases hdig : isDigits nm = true
      · obtain ⟨v, ha01, hv, hms1, hamid⟩ :=
          stepItem_manual_inv args kwargs a it nm ms1 amid hname hdig hs
        subst hamid
        have ihrest := formatFrom_interleave args kwargs rest Option.none ms2 a2 hrest
        constructor
        · intro k hk
          simp only [interleaveSpec, hname, hdig, if_true]
          rw [hns, hms1, hv, ihrest.2 rfl k]
          rfl
        · intro ha j
          simp only [interleaveSpec, hname, hdig, if_true]
          rw [hns, hms1, hv, ihrest.2 rfl j]
          rfl
      · rw [Bool.not_eq_true] at hdig
        by_cases hne : nm = ""
        · subst hne
          obtain ⟨k0, v, ha, hv, hms1, hamid⟩ :=
            stepItem_auto_inv args kwargs a it ms1 amid hname hs
          subst hamid
          have ihrest :=
            formatFrom_interleave args kwargs rest (Option.some (k0 + 1)) ms2 a2 hrest
          constructor
          · intro k hk
            rw [hk] at ha
            rw [Option.some.injEq] at ha
            subst ha
            simp only [interleaveSpec, hname, show isDigits "" = false from rfl,
              Bool.false_eq_true, if_false, if_pos rfl]
            rw [hns, hms1, hv, ihrest.1 (k + 1) rfl]
            rfl
          · intro hnone
            rw [hnone] at ha
            cases ha
        · obtain ⟨v, hv, hms1, hamid⟩ :=
            stepItem_named_inv args kwargs a it nm ms1 amid hname hdig hne hs
          have ihrest := formatFrom_interleave args kwargs rest amid ms2 a2 hrest
          constructor
          · intro k hk
            simp only [interleaveSpec, hname, hdig, Bool.false_eq_true, if_false,
              if_neg hne]
            rw [hns, hms1, hv, ihrest.1 k (hamid.trans hk)]
            rfl
          · intro ha j
            simp only [interleaveSpec, hname, hdig, Bool.false_eq_true, if_false,
              if_neg hne]
            rw [hns, hms1, hv, ihrest.2 (hamid.trans ha) j]
            rfl

/-! ### Claim theorems -/

/-- C6: for every text `s` and every context `ctx`, `Snippet(s).render(ctx)`
returns exactly `s`: rendering an `SQL` snippet is a pure identity on the
wrapped text, independent of the context, with no escaping applied. -/
theorem snippet_render_identity (s : String) (ctx : Ctx) :
    (Composable.SQL s).as_string ctx = s := by
  simp only [Composable.as_string]

/-- C4: combination is associative up to rendering — for all nodes
`a`, `b`, `c` and every context, `a.combine(b).combine(c)` renders to the
same text as `a.combine(b.combine(c))`, where `combine` is the `__add__`
rule (a `Composed` receiver extends its sequence, with one level of
flattening; a leaf receiver yields a fresh two-element `Composed`). -/
theorem combine_render_assoc (a b c : Composable) (ctx : Ctx) :
    (Composable.add (Composable.add a b) c).as_string ctx =
      (Composable.add a (Composable.add b c)).as_string ctx := by
  rw [as_string_add, as_string_add, as_string_add, as_string_add, String.append_assoc]

/-- C5: for every node `x` and natural `n`, `x.repeat(n)` is a `Composed`
containing exactly `n` references to `x` (the `n`-element replicate
list); `x.repeat(0)` renders to the empty string, and `x.repeat(n)`
renders to the `n`-fold concatenation of `x`'s rendering, for every
context. -/
theorem composable_repeat_spec (x : Composable) (n : Nat) (ctx : Ctx) :
    Composable.mul x (n : Int) = .Composed (List.replicate n x)
  ∧ (List.replicate n x).length = n
  ∧ (Composable.mul x 0).as_string ctx = ""
  ∧ (Composable.mul x (n : Int)).as_string ctx = nfold n (x.as_string ctx) := by
  have hmul : Composable.mul x (n : Int) = .Composed (List.replicate n x) := by
    unfold Composable.mul
    rw [Int.toNat_natCast]
  refine ⟨hmul, List.length_replicate n x, ?_, ?_⟩
  · show (Composable.Composed (List.replicate (Int.toNat 0) x)).as_string ctx = ""
    rw [as_string_composed]
    simp [Composable.as_string_seq, List.replicate]
  · rw [hmul, as_string_composed, as_string_seq_replicate]

/-- C9 (implicit): for every node `x` and negative integer `n`,
`x.repeat(n)` does not fail — it returns an empty `Composed`, identical
to `x.repeat(0)` (Python list repetition with a negative count yields the
empty list). -/
theorem composable_repeat_negative (x : Composable) (n : Int) (h : n < 0) :
    Composable.mul x n = Composable.mul x 0
  ∧ Composable.mul x n = .Composed [] := by
  have ht : n.toNat = 0 := Int.toNat_of_nonpos (le_of_lt h)
  unfold Composable.mul
  rw [ht]
  exact ⟨rfl, rfl⟩

theorem composable_repeat_negative_witness :
    Composable.mul (Composable.SQL "x") (-1) = Composable.mul (Composable.SQL "x") 0
  ∧ Composable.mul (Composable.SQL "x") (-1) = Composable.Composed [] :=
  composable_repeat_negative (Composable.SQL "x") (-1) (by decide)

/-- C8: `Placeholder` construction validates its optional name — a text
name containing `)` raises `ValueError`, a non-text non-absent name
raises `TypeError`, and an absent or valid text name succeeds. -/
theorem placeholder_init_validation :
    (∀ s : String, s.data.contains ')' = true →
      Placeholder.init (.text s) = .error (.valueError ("invalid name: " ++ s)))
  ∧ (∀ r : String, Placeholder.init (.other r) =
      .error (.typeError ("expected string or None as name, got " ++ r)))
  ∧ (∀ s : String, s.data.contains ')' = false →
      Placeholder.init (.text s) = .ok (.Placeholder (Option.some s)))
  ∧ Placeholder.init .absent = .ok (.Placeholder Option.none) := by
  refine ⟨?_, ?_, ?_, rfl⟩
  · intro s hs
    simp only [Placeholder.init]
    rw [hs]
    simp
  · intro r
    rfl
  · intro s hs
    simp only [Placeholder.init]
    rw [hs]
    simp

theorem placeholder_init_validation_witness :
    Placeholder.init (.text "a)b") = .error (.valueError "invalid name: a)b")
  ∧ Placeholder.init (.other "42") =
      .error (.typeError "expected string or None as name, got 42")
  ∧ Placeholder.init (.text "name") = .ok (.Placeholder (Option.some "name")) := by
  refine ⟨?_, ?_, ?_⟩
  · exact placeholder_init_validation.1 "a)b" rfl
  · exact placeholder_init_validation.2.1 "42"
  · exact placeholder_init_validation.2.2.1 "name" rfl

/-- C10 (implicit): `Placeholder("")` is accepted at construction (the
empty string is text and contains no `)`), and it renders to the
name-qualified marker `%()s` with an empty embedded name, not to the
generic positional marker `%s`. -/
theorem placeholder_empty_name (ctx : Ctx) :
    Placeholder.init (.text "") = .ok (.Placeholder (Option.some ""))
  ∧ (Composable.Placeholder (Option.some "")).as_string ctx = "%()s"
  ∧ (Composable.Placeholder (Option.some "")).as_string ctx ≠ "%s" := by
  refine ⟨rfl, ?_, ?_⟩
  · simp only [Composable.as_string]
    decide
  · simp only [Composable.as_string]
    decide

/-- C3: for every `Composed` with children `seq` and every valid
separator (an `SQL` node, or a text value first wrapped into `SQL`),
`join` returns the receiver itself when it has at most one child, and
otherwise a new `Composed` of exactly `2k - 1` elements: the original
children in order with one copy of the separator between every adjacent
pair. -/
theorem composed_join_interposes (seq : List Composable) (j : JoinArg) (sep : Composable)
    (hc : coerceJoiner j = .ok sep) :
    (seq.length ≤ 1 → Composed.join seq j = .ok (.Composed seq))
  ∧ (1 < seq.length →
      Composed.join seq j = .ok (.Composed (List.intersperse sep seq))
      ∧ (List.intersperse sep seq).length = 2 * seq.length - 1) := by
  constructor
  · intro hlen
    unfold Composed.join
    simp only [hc]
    rw [if_pos hlen]
  · intro hlen
    refine ⟨?_, ?_⟩
    · unfold Composed.join
      simp only [hc]
      rw [if_neg (by omega)]
      cases seq with
      | nil => simp at hlen
      | cons x rest => simp only [cons_flatMap_pairs sep x rest]
    · refine length_intersperse_of_ne_nil sep seq ?_
      intro hnil
      rw [hnil] at hlen
      simp at hlen

theorem composed_join_interposes_witness :
    Composed.join [Composable.Identifier "foo", Composable.Identifier "bar"]
        (.txt ", ") =
      .ok (.Composed (List.intersperse (Composable.SQL ", ")
        [Composable.Identifier "foo", Composable.Identifier "bar"]))
  ∧ (List.intersperse (Composable.SQL ", ")
      [Composable.Identifier "foo", Composable.Identifier "bar"]).length = 2 * 2 - 1
  ∧ Composed.join [Composable.Identifier "foo"] (.txt ", ") =
      .ok (.Composed [Composable.Identifier "foo"]) := by
  refine ⟨?_, ?_, ?_⟩
  · exact ((composed_join_interposes
      [Composable.Identifier "foo", Composable.Identifier "bar"] (.txt ", ")
      (Composable.SQL ", ") rfl).2 (by decide)).1
  · exact ((composed_join_interposes
      [Composable.Identifier "foo", Composable.Identifier "bar"] (.txt ", ")
      (Composable.SQL ", ") rfl).2 (by decide)).2
  · exact (composed_join_interposes [Composable.Identifier "foo"] (.txt ", ")
      (Composable.SQL ", ") rfl).1 (by decide)

/-- C1: `SQL.format` enforces a strict numbering-mode state machine.
After a first auto-numbered marker has been processed (the item `first`
with an empty field name), reaching any later manual-numbered marker
(digit field name) raises the `ValueError` "cannot switch from automatic
to manual"; after a first manual-numbered marker, reaching any later
auto-numbered marker raises "cannot switch from manual to automatic";
named markers never change the mode (a successful named step leaves the
`autonum` state unchanged, and the only error a clean named step can
raise is the key lookup error). -/
theorem sql_format_mode_state_machine (args : List Composable)
    (kwargs : List (String × Composable)) (p q rest : List ParseItem)
    (first it : ParseItem) :
    ((∀ ns σ nm, formatFrom args kwargs (Option.some 0) (p ++ first :: q) = .ok (ns, σ) →
        first.name = Option.some "" → it.name = Option.some nm → isDigits nm = true →
        cleanItem it →
        SQL.format args kwargs ((p ++ first :: q) ++ it :: rest) = .error .autoToManual)
  ∧ (∀ ns σ nm, formatFrom args kwargs (Option.some 0) (p ++ first :: q) = .ok (ns, σ) →
        first.name = Option.some nm → isDigits nm = true → it.name = Option.some "" →
        cleanItem it →
        SQL.format args kwargs ((p ++ first :: q) ++ it :: rest) = .error .manualToAuto)
  ∧ (∀ a ns a2 nm, it.name = Option.some nm → isDigits nm = false → nm ≠ "" →
        stepItem args kwargs a it = .ok (ns, a2) → a2 = a)
  ∧ (∀ a e nm, it.name = Option.some nm → isDigits nm = false → nm ≠ "" →
        cleanItem it → stepItem args kwargs a it = .error e → e = .keyError)) := by
  refine ⟨?_, ?_, ?_, ?_⟩
  · intro ns σ nm h hfirst hit hdig hcl
    obtain ⟨ms1, σp, ms2, hp, hfq, -⟩ :=
      formatFrom_append_ok args kwargs p (first :: q) (Option.some 0) ns σ h
    obtain ⟨fs, σf, qs, hstep, hq, -⟩ :=
      formatFrom_cons_ok args kwargs σp first q ms2 σ hfq
    obtain ⟨kf, v, hσp, -, -, hσf⟩ :=
      stepItem_auto_inv args kwargs σp first fs σf hfirst hstep
    rw [hσf] at hq
    obtain ⟨jj, hσ⟩ := formatFrom_state_pos args kwargs q kf qs σ hq
    apply SQL.format_err
    apply formatFrom_append_err args kwargs (p ++ first :: q) (it :: rest)
      (Option.some 0) ns σ _ h
    apply formatFrom_cons_step_err
    rw [hσ]
    exact stepItem_manual_block args kwargs jj it nm hcl hit hdig
  · intro ns σ nm h hfirst hdig hit hcl
    obtain ⟨ms1, σp, ms2, hp, hfq, -⟩ :=
      formatFrom_append_ok args kwargs p (first :: q) (Option.some 0) ns σ h
    obtain ⟨fs, σf, qs, hstep, hq, -⟩ :=
      formatFrom_cons_ok args kwargs σp first q ms2 σ hfq
    obtain ⟨v, -, -, -, hσf⟩ :=
      stepItem_manual_inv args kwargs σp first nm fs σf hfirst hdig hstep
    rw [hσf] at hq
    have hσ := formatFrom_state_none args kwargs q qs σ hq
    apply SQL.format_err
    apply formatFrom_append_err args kwargs (p ++ first :: q) (it :: rest)
      (Option.some 0) ns σ _ h
    apply formatFrom_cons_step_err
    rw [hσ]
    exact stepItem_auto_block args kwargs it hcl hit
  · intro a ns a2 nm hit hdig hne hstep
    obtain ⟨v, -, -, ha2⟩ :=
      stepItem_named_inv args kwargs a it nm ns a2 hit hdig hne hstep
    exact ha2
  · intro a e nm hit hdig hne hcl hstep
    cases hv : List.lookup nm kwargs with
    | none =>
      rw [stepItem_named_miss args kwargs a it nm hcl hit hdig hne hv] at hstep
      injection hstep with h'
      exact h'.symm
    | some v =>
      rw [stepItem_named_ok args kwargs a it nm v hcl hit hdig hne hv] at hstep
      cases hstep

theorem sql_format_mode_state_machine_witness :
    SQL.format [Composable.SQL "A", Composable.SQL "B"] []
      [⟨"", Option.some "", Option.none, Option.none⟩,
       ⟨" ", Option.some "0", Option.none, Option.none⟩] = .error .autoToManual
  ∧ SQL.format [Composable.SQL "A", Composable.SQL "B"] []
      [⟨"", Option.some "0", Option.none, Option.none⟩,
       ⟨" ", Option.some "", Option.none, Option.none⟩] = .error .manualToAuto
  ∧ (Option.some 5 : Option Nat) = Option.some 5
  ∧ FmtErr.keyError = FmtErr.keyError := by
  refine ⟨?_, ?_, ?_, ?_⟩
  · exact (sql_format_mode_state_machine [Composable.SQL "A", Composable.SQL "B"] []
      [] [] [] ⟨"", Option.some "", Option.none, Option.none⟩
      ⟨" ", Option.some "0", Option.none, Option.none⟩).1
      [Composable.SQL "A"] (Option.some 1) "0" rfl rfl rfl rfl ⟨rfl, rfl⟩
  · exact (sql_format_mode_state_machine [Composable.SQL "A", Composable.SQL "B"] []
      [] [] [] ⟨"", Option.some "0", Option.none, Option.none⟩
      ⟨" ", Option.some "", Option.none, Option.none⟩).2.1
      [Composable.SQL "A"] Option.none "0" rfl rfl rfl rfl ⟨rfl, rfl⟩
  · exact (sql_format_mode_state_machine [] [("t", Composable.SQL "T")]
      [] [] [] ⟨"", Option.none, Option.none, Option.none⟩
      ⟨"", Option.some "t", Option.none, Option.none⟩).2.2.1
      (Option.some 5) [Composable.SQL "T"] (Option.some 5) "t" rfl rfl
      (by decide) rfl
  · exact (sql_format_mode_state_machine [] []
      [] [] [] ⟨"", Option.none, Option.none, Option.none⟩
      ⟨"", Option.some "missing", Option.none, Option.none⟩).2.2.2
      (Option.some 0) FmtErr.keyError "missing" rfl rfl (by decide) ⟨rfl, rfl⟩ rfl

/-- C2: whenever `SQL.format` succeeds, the result is a `Composed` whose
children are, in left-to-right template order, the interleaving of the
literal text runs and the substituted argument nodes, every non-empty
literal run between and around placeholders being emitted as its own
`SQL` (Snippet) node — the spec-side description `interleaveSpec`. -/
theorem sql_format_interleaving (args : List Composable)
    (kwargs : List (String × Composable)) (items : List ParseItem) (c : Composable)
    (h : SQL.format args kwargs items = .ok c) :
    c = .Composed (interleaveSpec args kwargs 0 items) := by
  obtain ⟨ns, a2, hf, hc⟩ := SQL.format_ok_inv args kwargs items c h
  rw [hc, (formatFrom_interleave args kwargs items (Option.some 0) ns a2 hf).1 0 rfl]

theorem sql_format_interleaving_witness :
    (Composable.Composed [Composable.SQL "select ", Composable.Identifier "id",
        Composable.SQL " from ", Composable.Identifier "tbl"]) =
      .Composed (interleaveSpec [Composable.Identifier "id"]
        [("t", Composable.Identifier "tbl")] 0
        [⟨"select ", Option.some "", Option.none, Option.none⟩,
         ⟨" from ", Option.some "t", Option.none, Option.none⟩]) :=
  sql_format_interleaving [Composable.Identifier "id"]
    [("t", Composable.Identifier "tbl")]
    [⟨"select ", Option.some "", Option.none, Option.none⟩,
     ⟨" from ", Option.some "t", Option.none, Option.none⟩]
    (.Composed [Composable.SQL "select ", Composable.Identifier "id",
      Composable.SQL " from ", Composable.Identifier "tbl"]) rfl

/-- C7: during `SQL.format`, a positional marker (auto- or
manual-numbered) whose index has no corresponding positional argument
raises the index lookup error, and a named marker whose name has no
corresponding keyword argument raises the key lookup error, surfaced to
the caller; in particular two auto markers against a single positional
argument raise the index error. -/
theorem sql_format_missing_lookup (args : List Composable)
    (kwargs : List (String × Composable)) (pfx rest : List ParseItem) (it : ParseItem) :
    ((∀ ns k, formatFrom args kwargs (Option.some 0) pfx = .ok (ns, Option.some k) →
        it.name = Option.some "" → cleanItem it → args.get? k = Option.none →
        SQL.format args kwargs (pfx ++ it :: rest) = .error .indexError)
  ∧ (∀ ns σ nm, formatFrom args kwargs (Option.some 0) pfx = .ok (ns, σ) →
        (σ = Option.some 0 ∨ σ = Option.none) → it.name = Option.some nm →
        isDigits nm = true → cleanItem it →
        args.get? (digitsToNat nm) = Option.none →
        SQL.format args kwargs (pfx ++ it :: rest) = .error .indexError)
  ∧ (∀ ns σ nm, formatFrom args kwargs (Option.some 0) pfx = .ok (ns, σ) →
        it.name = Option.some nm → isDigits nm = false → nm ≠ "" →
        cleanItem it → List.lookup nm kwargs = Option.none →
        SQL.format args kwargs (pfx ++ it :: rest) = .error .keyError)) := by
  refine ⟨?_, ?_, ?_⟩
  · intro ns k h hit hcl hmiss
    apply SQL.format_err
    apply formatFrom_append_err args kwargs pfx (it :: rest)
      (Option.some 0) ns (Option.some k) _ h
    apply formatFrom_cons_step_err
    exact stepItem_auto_miss args kwargs k it hcl hit hmiss
  · intro ns σ nm h hσ hit hdig hcl hmiss
    apply SQL.format_err
    apply formatFrom_append_err args kwargs pfx (it :: rest)
      (Option.some 0) ns σ _ h
    apply formatFrom_cons_step_err
    exact stepItem_manual_miss args kwargs σ it nm hcl hit hdig hσ hmiss
  · intro ns σ nm h hit hdig hne hcl hmiss
    apply SQL.format_err
    apply formatFrom_append_err args kwargs pfx (it :: rest)
      (Option.some 0) ns σ _ h
    apply formatFrom_cons_step_err
    exact stepItem_named_miss args kwargs σ it nm hcl hit hdig hne hmiss

theorem sql_format_missing_lookup_witness :
    SQL.format [Composable.SQL "A"] []
      [⟨"", Option.some "", Option.none, Option.none⟩,
       ⟨" ", Option.some "", Option.none, Option.none⟩] = .error .indexError
  ∧ SQL.format [] [] [⟨"", Option.some "7", Option.none, Option.none⟩] =
      .error .indexError
  ∧ SQL.format [] [] [⟨"", Option.some "missing", Option.none, Option.none⟩] =
      .error .keyError := by
  refine ⟨?_, ?_, ?_⟩
  · exact (sql_format_missing_lookup [Composable.SQL "A"] []
      [⟨"", Option.some "", Option.none, Option.none⟩] []
      ⟨" ", Option.some "", Option.none, Option.none⟩).1
      [Composable.SQL "A"] 1 rfl rfl ⟨rfl, rfl⟩ rfl
  · exact (sql_format_missing_lookup [] [] [] []
      ⟨"", Option.some "7", Option.none, Option.none⟩).2.1
      [] (Option.some 0) "7" rfl (Or.inl rfl) rfl rfl ⟨rfl, rfl⟩ rfl
  · exact (sql_format_missing_lookup [] [] [] []
      ⟨"", Option.some "missing", Option.none, Option.none⟩).2.2
      [] (Option.some 0) "missing" rfl rfl rfl (by decide) ⟨rfl, rfl⟩ rfl
